import Mathlib

set_option autoImplicit false

namespace AutocadViewer

/-! Shallow embedding of the AutocadViewer conversion orchestrator.

The embedding follows the server sources:
* `shared/schema.ts` (src/unnamed/part_004): the `files` table row type and the
  FILE_TYPES / FILE_STATUS string constants.
* `server/storage.ts` (src/unnamed/part_007): `MemStorage`, a `Map<number, File>`
  with `getFile` / `createFile` / `updateFileStatus` / `updateFileMetadata` /
  `deleteFile`.
* `server/routes.ts` (src/unnamed/part_006, second revision, the one that talks to
  APS): `processFile` and the route handlers.
* `server/aps-service.ts`: `APSService.createBucket` and `encodeBase64Url`.

JSON values written into the `metadata` column (a JSON string in the source) are
modelled structurally as `JsonVal`; `JSON.stringify` is injective on the objects
the code builds, so nothing is lost by keeping the structure.  Timestamps
(`new Date()` / `Date.now()`) are abstracted as `Nat` parameters supplied by the
caller of each embedded operation. -/

/-- Structural model of the JSON values the server writes into `metadata`. -/
inductive JsonVal where
  | str (s : String)
  | bool (b : Bool)
  | num (n : Nat)
  | obj (fields : List (String × JsonVal))

/-- Row type of the `files` table (shared/schema.ts lines 127-140). -/
structure File where
  id : Nat
  filename : String
  originalName : String
  mimeType : String
  size : Nat
  filePath : String
  fileType : String
  status : String
  errorMessage : Option String
  metadata : Option JsonVal
  uploadedAt : Nat
  processedAt : Option Nat

/-- Insert shape accepted by `createFile` (id, uploadedAt, processedAt omitted). -/
structure InsertFile where
  filename : String
  originalName : String
  mimeType : String
  size : Nat
  filePath : String
  fileType : String
  status : String
  errorMessage : Option String
  metadata : Option JsonVal

/-- The `MemStorage` backing map, `Map<number, File>`, as an association list in
insertion order. -/
abbrev Store := List (Nat × File)

/-- Lookup in the map (`this.files.get(id)`). -/
def getFile : Store → Nat → Option File
  | [], _ => none
  | p :: rest, id => if p.1 = id then some p.2 else getFile rest id

/-- JS `Map.set`: replace the entry with the given key in place, or append a new
entry at the end. -/
def storeSet : Store → Nat → File → Store
  | [], id, f => [(id, f)]
  | p :: rest, id, f => if p.1 = id then (id, f) :: rest else p :: storeSet rest id f

/-- JS `Map.delete`: remove the entry with the given key, reporting whether it was
present. -/
def storeDelete : Store → Nat → Bool × Store
  | [], _ => (false, [])
  | p :: rest, id =>
    if p.1 = id then (true, rest)
    else
      let r := storeDelete rest id
      (r.1, p :: r.2)

/-- A JS `Map` never holds two entries with the same key; stores produced by
`MemStorage` satisfy this. -/
def StoreWF (s : Store) : Prop := (s.map Prod.fst).Nodup

/-- MemStorage state: the map together with `currentId`. -/
structure MemState where
  store : Store
  currentId : Nat

/-- JS `errorMessage || null`: `undefined` and the empty string collapse to null
(storage.ts line 50). -/
def jsOrNull (em : Option String) : Option String :=
  match em with
  | some s => if s = "" then none else some s
  | none => none

/-- MemStorage.createFile (storage.ts lines 31-41): allocate `currentId`, fill in
`uploadedAt`, leave `processedAt` null. -/
def createFile (st : MemState) (ins : InsertFile) (now : Nat) : File × MemState :=
  let id := st.currentId
  let f : File :=
    { id := id, filename := ins.filename, originalName := ins.originalName,
      mimeType := ins.mimeType, size := ins.size, filePath := ins.filePath,
      fileType := ins.fileType, status := ins.status,
      errorMessage := ins.errorMessage, metadata := ins.metadata,
      uploadedAt := now, processedAt := none }
  (f, { store := storeSet st.store id f, currentId := st.currentId + 1 })

/-- MemStorage.updateFileStatus (storage.ts lines 43-56).  Returns the updated
record (or none when the id is absent) together with the new store.
`processedAt` is overwritten with the current time whenever the new status is
`ready` or `error`, and kept otherwise. -/
def updateFileStatus (s : Store) (id : Nat) (status : String)
    (errorMessage : Option String) (now : Nat) : Option File × Store :=
  match getFile s id with
  | none => (none, s)
  | some f =>
    let f2 : File :=
      { f with
        status := status,
        errorMessage := jsOrNull errorMessage,
        processedAt :=
          if status = "ready" ∨ status = "error" then some now else f.processedAt }
    (some f2, storeSet s id f2)

/-- MemStorage.updateFileMetadata (storage.ts lines 58-65). -/
def updateFileMetadata (s : Store) (id : Nat) (m : JsonVal) : Option File × Store :=
  match getFile s id with
  | none => (none, s)
  | some f =>
    let f2 : File := { f with metadata := some m }
    (some f2, storeSet s id f2)

/-- MemStorage.deleteFile (storage.ts lines 67-69). -/
def deleteFile (s : Store) (id : Nat) : Bool × Store := storeDelete s id

/-! Base64 / URL-safe encoding (aps-service.ts lines 189-194).  The source calls
Node's `Buffer.from(text).toString('base64')`; the base64 alphabet and the UTF-8
byte encoding are the standard ones, reproduced here since Node's stdlib is not
part of the repository. -/

/-- The standard base64 alphabet, index 0 to 63. -/
def b64Alphabet : List Char :=
  ['A', 'B', 'C', 'D', 'E', 'F', 'G', 'H', 'I', 'J', 'K', 'L', 'M',
   'N', 'O', 'P', 'Q', 'R', 'S', 'T', 'U', 'V', 'W', 'X', 'Y', 'Z',
   'a', 'b', 'c', 'd', 'e', 'f', 'g', 'h', 'i', 'j', 'k', 'l', 'm',
   'n', 'o', 'p', 'q', 'r', 's', 't', 'u', 'v', 'w', 'x', 'y', 'z',
   '0', '1', '2', '3', '4', '5', '6', '7', '8', '9', '+', '/']

/-- Character for a six-bit group. -/
def sextetChar (n : Nat) : Char := b64Alphabet.getD n '?'

/-- Base64 of a byte list: three input bytes map to four alphabet characters, a
final group of two or one byte is padded with `=`. -/
def b64Chunks : List Nat → List Char
  | b0 :: b1 :: b2 :: rest =>
      sextetChar (b0 / 4) :: sextetChar (b0 % 4 * 16 + b1 / 16) ::
        sextetChar (b1 % 16 * 4 + b2 / 64) :: sextetChar (b2 % 64) :: b64Chunks rest
  | [b0, b1] =>
      [sextetChar (b0 / 4), sextetChar (b0 % 4 * 16 + b1 / 16),
       sextetChar (b1 % 16 * 4), '=']
  | [b0] => [sextetChar (b0 / 4), sextetChar (b0 % 4 * 16), '=', '=']
  | [] => []

/-- Modelled from the spec: `Buffer.from(text)` (Node stdlib, absent from the
repository) yields the UTF-8 bytes of the string; this is the standard UTF-8
encoding of one code point. -/
def utf8EncodeCodepoint (n : Nat) : List Nat :=
  if n < 128 then [n]
  else if n < 2048 then [192 + n / 64, 128 + n % 64]
  else if n < 65536 then [224 + n / 4096, 128 + n / 64 % 64, 128 + n % 64]
  else [240 + n / 262144, 128 + n / 4096 % 64, 128 + n / 64 % 64, 128 + n % 64]

/-- UTF-8 bytes of a character sequence. -/
def utf8Bytes : List Char → List Nat
  | [] => []
  | c :: cs => utf8EncodeCodepoint c.toNat ++ utf8Bytes cs

/-- The regex replacement chain of `encodeBase64Url`: `+` to `-`, `/` to `_`. -/
def b64ToUrl (c : Char) : Char := if c = '+' then '-' else if c = '/' then '_' else c

/-- Characters allowed in a URL path segment per the claim: `[A-Za-z0-9-_]`. -/
def base64UrlSafe (c : Char) : Bool := c.isAlphanum || c = '-' || c = '_'

/-- APSService.encodeBase64Url on bytes: base64, then the two replacements, then
every `=` dropped. -/
def APSService.encodeBase64UrlChars (bytes : List Nat) : List Char :=
  ((b64Chunks bytes).map b64ToUrl).filter (fun c => c != '=')

/-- APSService.encodeBase64Url (aps-service.ts lines 189-194). -/
def APSService.encodeBase64Url (s : String) : String :=
  ⟨APSService.encodeBase64UrlChars (utf8Bytes s.data)⟩

/-! Conversion pipeline (routes.ts, `processFile`, lines 266-335 of the APS
revision).  A run is embedded as the list of its effects in order: atomic store
writes, timer waits, and remote APS calls.  The cooperative model of §5 of the
spec applies: control can pass to other tasks only at timer waits and remote
round-trips (`await` of an immediately-resolved in-memory store promise resumes
from the microtask queue before any new request is handled), so the store is
externally observable exactly at `wait` and `aps` events and at the end of the
trace. -/

/-- A write against the status store. -/
inductive StoreOp where
  | setStatus (status : String) (errorMessage : Option String)
  | setMetadata (m : JsonVal)

/-- The four remote APS calls the pipeline makes. -/
inductive APSCall where
  | createBucket
  | uploadFile
  | translateFile
  | getManifest
deriving DecidableEq

/-- One effect of a pipeline run. -/
inductive PipeEvent where
  | store (op : StoreOp)
  | wait (ms : Nat)
  | aps (c : APSCall)

/-- Result of an awaited remote call: resolved value or thrown error message. -/
inductive APSResult (α : Type) where
  | ok (a : α)
  | error (msg : String)

/-- Behaviour of the remote service during one run: the resolution of each call,
with the manifest response indexed by the (1-based) poll attempt number. -/
structure APSEnv where
  createBucketRes : APSResult JsonVal
  uploadRes : APSResult String
  translateRes : APSResult JsonVal
  manifestRes : Nat → APSResult JsonVal

/-- Field access on a JSON object (`undefined` elsewhere). -/
def jsonField : JsonVal → String → Option JsonVal
  | .obj fields, k => (fields.find? (fun p => p.1 == k)).map Prod.snd
  | _, _ => none

/-- The `status.status` string the poll loop branches on, when it is a string. -/
def manifestStatus (m : JsonVal) : Option String :=
  match jsonField m "status" with
  | some (.str s) => some s
  | _ => none

/-- Metadata written for non-CAD files (routes.ts lines 325-328). -/
def standardMetadata : JsonVal :=
  .obj [("viewerType", .str "standard"), ("processed", .bool true)]

/-- Metadata written on a successful translation (routes.ts lines 296-303): note
the `status` and `derivatives` keys. -/
def apsMetadata (urn bucketKey objectKey : String) (manifest : JsonVal) : JsonVal :=
  .obj [("viewerType", .str "aps"), ("urn", .str urn),
        ("bucketKey", .str bucketKey), ("objectKey", .str objectKey),
        ("status", .str "translated"), ("derivatives", manifest)]

/-- Attempt ceiling of the poll loop (routes.ts line 288). -/
def maxAttempts : Nat := 30

/-- Bucket key minted per run: `autocad-viewer-` followed by `Date.now()`
(routes.ts line 272). -/
def pipeBucketKey (nowMs : Nat) : String := "autocad-viewer-" ++ toString nowMs

/-- Object key per run: the file id, a dash, the original name (routes.ts
line 273). -/
def pipeObjectKey (fileId : Nat) (originalName : String) : String :=
  toString fileId ++ "-" ++ originalName

/-- The `checkStatus` poll loop (routes.ts lines 290-312), entered with the number
of attempts already made.  A thrown `getTranslationStatus` is not caught by any
handler (the enclosing try has already returned), so the trace simply ends there.
The recursive call is reached only when the manifest is neither success nor
failed and attempts remain. -/
def checkStatusEvents (env : APSEnv) (urn bucketKey objectKey : String)
    (attempts : Nat) : List PipeEvent :=
  PipeEvent.aps .getManifest ::
    (match env.manifestRes (attempts + 1) with
     | .error _ => []
     | .ok m =>
       if manifestStatus m = some "success" then
         [.store (.setStatus "ready" none),
          .store (.setMetadata (apsMetadata urn bucketKey objectKey m))]
       else if manifestStatus m = some "failed" then
         [.store (.setStatus "error" (some "APS translation failed"))]
       else if h : attempts + 1 < maxAttempts then
         PipeEvent.wait 10000 :: checkStatusEvents env urn bucketKey objectKey (attempts + 1)
       else
         [.store (.setStatus "error" (some "Translation timeout"))])
termination_by maxAttempts - attempts
decreasing_by omega

/-- The `processFile` pipeline (routes.ts lines 266-335): for AUTOCAD files the
PROCESSING write, the three remote setup calls (each failure caught and mapped
to ERROR with the `APS error: ` prefix), then the poll loop after a 10 s timer;
for every other type a 1 s timer followed by the READY and metadata writes, with
no remote call and no PROCESSING write. -/
def processFileEvents (env : APSEnv) (fileId : Nat) (fileType : String)
    (originalName : String) (nowMs : Nat) : List PipeEvent :=
  if fileType = "autocad" then
    PipeEvent.store (.setStatus "processing" none) ::
      PipeEvent.aps .createBucket ::
        (match env.createBucketRes with
         | .error e => [.store (.setStatus "error" (some ("APS error: " ++ e)))]
         | .ok _ =>
           PipeEvent.aps .uploadFile ::
             (match env.uploadRes with
              | .error e => [.store (.setStatus "error" (some ("APS error: " ++ e)))]
              | .ok objectId =>
                PipeEvent.aps .translateFile ::
                  (match env.translateRes with
                   | .error e =>
                     [.store (.setStatus "error" (some ("APS error: " ++ e)))]
                   | .ok _ =>
                     PipeEvent.wait 10000 ::
                       checkStatusEvents env (APSService.encodeBase64Url objectId)
                         (pipeBucketKey nowMs) (pipeObjectKey fileId originalName) 0)))
  else
    [PipeEvent.wait 1000, .store (.setStatus "ready" none),
     .store (.setMetadata standardMetadata)]

/-- Apply one store write of the pipeline, via the MemStorage operations. -/
def applyStoreOp (s : Store) (id : Nat) (now : Nat) : StoreOp → Store
  | .setStatus st em => (updateFileStatus s id st em now).2
  | .setMetadata m => (updateFileMetadata s id m).2

/-- Final store after a pipeline trace. -/
def runEvents (s : Store) (id : Nat) (now : Nat) : List PipeEvent → Store
  | [] => s
  | PipeEvent.store op :: rest => runEvents (applyStoreOp s id now op) id now rest
  | PipeEvent.wait _ :: rest => runEvents s id now rest
  | PipeEvent.aps _ :: rest => runEvents s id now rest

/-- The store states a concurrent reader can observe during a trace: the state at
every suspension point (timer wait or remote call) and the state after the run. -/
def observableStores (s : Store) (id : Nat) (now : Nat) : List PipeEvent → List Store
  | [] => [s]
  | PipeEvent.store op :: rest => observableStores (applyStoreOp s id now op) id now rest
  | PipeEvent.wait _ :: rest => s :: observableStores s id now rest
  | PipeEvent.aps _ :: rest => s :: observableStores s id now rest

/-- Is this event a manifest poll. -/
def isPoll (e : PipeEvent) : Bool :=
  match e with
  | .aps .getManifest => true
  | _ => false

/-- Is this event any remote APS call. -/
def isApsCall (e : PipeEvent) : Bool :=
  match e with
  | .aps _ => true
  | _ => false

/-- Does this event write status PROCESSING. -/
def setsProcessing (e : PipeEvent) : Bool :=
  match e with
  | .store (.setStatus "processing" _) => true
  | _ => false

/-- Number of manifest polls in a trace. -/
def pollCount (evs : List PipeEvent) : Nat := evs.countP isPoll

/-- Every manifest poll in the trace is immediately preceded by a 10000 ms timer
wait. -/
def pollsSpaced : List PipeEvent → Bool
  | [] => true
  | PipeEvent.wait ms :: PipeEvent.aps APSCall.getManifest :: rest =>
    ms == 10000 && pollsSpaced rest
  | PipeEvent.aps APSCall.getManifest :: _ => false
  | _ :: rest => pollsSpaced rest

/-- The complete metadata object the pipeline attaches for a detected type. -/
def completeMetaFor (fileType : String) (f : File) : Prop :=
  if fileType = "autocad" then
    ∃ u b o m, f.metadata = some (apsMetadata u b o m)
  else f.metadata = some standardMetadata

/-- Every poll resolves, with a manifest that is neither success nor failed. -/
def allPending (env : APSEnv) : Prop :=
  ∀ a, ∃ m, env.manifestRes a = .ok m ∧
    manifestStatus m ≠ some "success" ∧ manifestStatus m ≠ some "failed"

/-! Route handlers (routes.ts).  Each handler is embedded as a function returning
the new store, the HTTP-visible result, and the list of pipeline runs it
schedules.  The upload route (lines 366-410) schedules a `processFile` run per
saved file; the PATCH status route (lines 413-428) and the others schedule
nothing. -/

/-- A scheduled `processFile(fileId, fileType, filePath, originalName)` call. -/
structure ScheduledRun where
  fileId : Nat
  fileType : String
  filePath : String
  originalName : String

/-- Body of `PATCH /api/files/:id/status`. -/
structure PatchStatusBody where
  status : String
  errorMessage : Option String

/-- The `PATCH /api/files/:id/status` handler (routes.ts lines 413-428), the
target of the client retry button: it calls `updateFileStatus` and returns the
updated record (404 when none); it schedules no pipeline run. -/
def patchStatusHandler (s : Store) (id : Nat) (body : PatchStatusBody) (now : Nat) :
    Store × Option File × List ScheduledRun :=
  let r := updateFileStatus s id body.status body.errorMessage now
  (r.2, r.1, [])

/-- Per-file body of the upload route (routes.ts lines 374-397): create the
record, then schedule `processFile` for it. -/
def uploadOneFile (st : MemState) (ins : InsertFile) (uploadPath origName : String)
    (now : Nat) : MemState × File × List ScheduledRun :=
  let r := createFile st ins now
  (r.2, r.1,
   [{ fileId := r.1.id, fileType := ins.fileType, filePath := uploadPath,
      originalName := origName }])

/-- Trace of a scheduled run when it later executes. -/
def scheduledEvents (env : APSEnv) (r : ScheduledRun) (nowMs : Nat) : List PipeEvent :=
  processFileEvents env r.fileId r.fileType r.originalName nowMs

/-! APSService.createBucket (aps-service.ts lines 85-118) and an abstract remote
OSS service for the idempotence claim. -/

/-- Bucket identity returned by the remote service. -/
structure APSBucket where
  bucketKey : String
  bucketOwner : String
  policyKey : String
deriving DecidableEq

/-- Result of an axios call: resolved data, or a thrown error that may carry an
HTTP status code (`error.response?.status`). -/
inductive HttpResult (α : Type) where
  | ok (a : α)
  | err (statusCode : Option Nat) (msg : String)
deriving DecidableEq

/-- The two responses `createBucket` can consume in one call: the POST
/oss/v2/buckets outcome and the GET details outcome. -/
structure BucketEnv where
  postResult : HttpResult APSBucket
  detailsResult : HttpResult APSBucket

/-- APSService.createBucket (aps-service.ts lines 85-118): POST the bucket; if the
call throws with HTTP status 409, GET the existing bucket details and return
them; any other error is rethrown. -/
def APSService.createBucket (env : BucketEnv) : HttpResult APSBucket :=
  match env.postResult with
  | .ok b => .ok b
  | .err code msg => if code = some 409 then env.detailsResult else .err code msg

/-- Modelled from the spec: the remote OSS collaborator (§4.4, glossary; not part
of the repository) keeps named buckets; POST creates one, a repeated POST with
the same key answers 409 conflict, and GET details returns the stored bucket. -/
structure RemoteOSS where
  buckets : List (String × APSBucket)

/-- Identity the remote mints for a new bucket key. -/
def mkBucket (key : String) : APSBucket :=
  { bucketKey := key, bucketOwner := "app", policyKey := "temporary" }

/-- Remote POST /oss/v2/buckets. -/
def remotePost (st : RemoteOSS) (key : String) : HttpResult APSBucket × RemoteOSS :=
  match st.buckets.find? (fun p => p.1 == key) with
  | some _ => (.err (some 409) "Bucket already exists", st)
  | none => (.ok (mkBucket key), { buckets := st.buckets ++ [(key, mkBucket key)] })

/-- Remote GET /oss/v2/buckets/:key/details. -/
def remoteDetails (st : RemoteOSS) (key : String) : HttpResult APSBucket :=
  match (st.buckets.find? (fun p => p.1 == key)).map Prod.snd with
  | some b => .ok b
  | none => .err (some 404) "Bucket not found"

/-- One `createBucket(key)` call played against the remote service. -/
def createBucketAgainst (st : RemoteOSS) (key : String) : HttpResult APSBucket × RemoteOSS :=
  let post := remotePost st key
  (APSService.createBucket
     { postResult := post.1, detailsResult := remoteDetails post.2 key },
   post.2)

/-! Concrete fixtures used by counterexamples and witnesses. -/

/-- A sample AUTOCAD record as `createFile` leaves it, with the given status. -/
def sampleFile (status : String) : File :=
  { id := 1, filename := "abc123", originalName := "plan.dwg",
    mimeType := "application/acad", size := 1000, filePath := "uploads/abc123",
    fileType := "autocad", status := status, errorMessage := none,
    metadata := none, uploadedAt := 0, processedAt := none }

/-- A sample non-CAD record, with the given status. -/
def samplePdf (status : String) : File :=
  { id := 1, filename := "def456", originalName := "spec.pdf",
    mimeType := "application/pdf", size := 2000, filePath := "uploads/def456",
    fileType := "pdf", status := status, errorMessage := none,
    metadata := none, uploadedAt := 0, processedAt := none }

/-- A manifest document with the given status field. -/
def manifestDoc (st : String) : JsonVal :=
  .obj [("type", .str "manifest"), ("status", .str st), ("progress", .str "complete")]

/-- An environment where the three setup calls succeed and every poll resolves to
the given manifest responses. -/
def stdEnv (ms : Nat → APSResult JsonVal) : APSEnv :=
  { createBucketRes := .ok (.obj []),
    uploadRes := .ok "urn:adsk.objects:os.object:bkt/plan.dwg",
    translateRes := .ok (.obj []), manifestRes := ms }

/-- Every poll reports a failed translation. -/
def envFailed : APSEnv := stdEnv (fun _ => .ok (manifestDoc "failed"))

/-- Every poll reports success. -/
def envSuccess : APSEnv := stdEnv (fun _ => .ok (manifestDoc "success"))

/-- Every poll is still in progress. -/
def envPending : APSEnv := stdEnv (fun _ => .ok (manifestDoc "inprogress"))

/-- The first poll throws (for example, a network failure). -/
def envPollThrows : APSEnv := stdEnv (fun _ => .error "getaddrinfo ENOTFOUND")

/-- Every record stored under the id carries a non-null processedAt. -/
def keepsProcessed (s : Store) (id : Nat) : Prop :=
  ∀ f, getFile s id = some f → f.processedAt.isSome

/-- Every record stored under the id is in status PROCESSING. -/
def processingInv (s : Store) (id : Nat) : Prop :=
  ∀ f, getFile s id = some f → f.status = "processing"

/-- Reader-facing consistency at one store state: READY only with the full APS
metadata object attached. -/
def readyMetaAps (id : Nat) (u b o : String) (s : Store) : Prop :=
  ∀ f, getFile s id = some f → f.status = "ready" →
    ∃ m, f.metadata = some (apsMetadata u b o m)

/-- Store after the first terminal transition of the retry scenario: the sample
record fails at time 5. -/
def retryS1 : Store :=
  (updateFileStatus [(1, sampleFile "uploading")] 1 "error"
    (some "APS translation failed") 5).2

/-- Store after the client retry PATCH at time 7. -/
def retryS2 : Store :=
  (patchStatusHandler retryS1 1 { status := "processing", errorMessage := none } 7).1

/-- Store after a second terminal transition at time 9. -/
def retryS3 : Store := (updateFileStatus retryS2 1 "ready" none 9).2

/-- Insert payload of the sample AUTOCAD upload. -/
def sampleInsert : InsertFile :=
  { filename := "abc123", originalName := "plan.dwg",
    mimeType := "application/acad", size := 1000, filePath := "uploads/abc123",
    fileType := "autocad", status := "uploading", errorMessage := none,
    metadata := none }

/-- An environment whose bucket creation call throws. -/
def envCbFails : APSEnv :=
  { createBucketRes := .error "401 Unauthorized",
    uploadRes := .ok "urn:adsk.objects:os.object:bkt/plan.dwg",
    translateRes := .ok (.obj []),
    manifestRes := fun _ => .ok (manifestDoc "success") }

/-- A createBucket exchange where the POST answers 409 conflict. -/
def envConflict : BucketEnv :=
  { postResult := .err (some 409) "Bucket already exists",
    detailsResult := .ok (mkBucket "autocad-viewer-1") }

theorem getFile_storeSet_self (s : Store) (id : Nat) (f : File) :
    getFile (storeSet s id f) id = some f := by
  induction s with
  | nil => simp [storeSet, getFile]
  | cons p rest ih =>
    by_cases h : p.1 = id
    · simp [storeSet, getFile, h]
    · simp [storeSet, getFile, h, ih]

theorem getFile_eq_none_of_not_mem (s : Store) (id : Nat)
    (h : id ∉ s.map Prod.fst) : getFile s id = none := by
  induction s with
  | nil => rfl
  | cons p rest ih =>
    simp only [List.map_cons, List.mem_cons] at h
    push_neg at h
    simp only [getFile]
    rw [if_neg (fun hh => h.1 hh.symm)]
    exact ih h.2

theorem storeDelete_not_mem (s : Store) (id : Nat) (hwf : StoreWF s) :
    id ∉ (storeDelete s id).2.map Prod.fst := by
  induction s with
  | nil => simp [storeDelete]
  | cons p rest ih =>
    obtain ⟨k, f⟩ := p
    simp only [StoreWF, List.map_cons, List.nodup_cons] at hwf
    by_cases h : k = id
    · have h2 : (storeDelete ((k, f) :: rest) id).2 = rest := by simp [storeDelete, h]
      rw [h2]
      exact h ▸ hwf.1
    · intro hmem
      have h2 : (storeDelete ((k, f) :: rest) id).2 = (k, f) :: (storeDelete rest id).2 := by
        simp [storeDelete, h]
      rw [h2, List.map_cons, List.mem_cons] at hmem
      rcases hmem with hmem | hmem
      · exact h hmem.symm
      · exact ih hwf.2 hmem

theorem getFile_storeDelete (s : Store) (id : Nat) (hwf : StoreWF s) :
    getFile (storeDelete s id).2 id = none :=
  getFile_eq_none_of_not_mem _ _ (storeDelete_not_mem s id hwf)

theorem updateFileStatus_absent (s : Store) (id : Nat) (st : String)
    (em : Option String) (now : Nat) (h : getFile s id = none) :
    updateFileStatus s id st em now = (none, s) := by
  simp [updateFileStatus, h]

theorem updateFileMetadata_absent (s : Store) (id : Nat) (m : JsonVal)
    (h : getFile s id = none) :
    updateFileMetadata s id m = (none, s) := by
  simp [updateFileMetadata, h]

theorem updateFileStatus_present (s : Store) (id : Nat) (st : String)
    (em : Option String) (now : Nat) (f : File) (h : getFile s id = some f) :
    updateFileStatus s id st em now =
      (some
        { f with
          status := st,
          errorMessage := jsOrNull em,
          processedAt :=
            if st = "ready" ∨ st = "error" then some now else f.processedAt },
       storeSet s id
        { f with
          status := st,
          errorMessage := jsOrNull em,
          processedAt :=
            if st = "ready" ∨ st = "error" then some now else f.processedAt }) := by
  simp [updateFileStatus, h]

theorem updateFileMetadata_present (s : Store) (id : Nat) (m : JsonVal) (f : File)
    (h : getFile s id = some f) :
    updateFileMetadata s id m =
      (some { f with metadata := some m }, storeSet s id { f with metadata := some m }) := by
  simp [updateFileMetadata, h]

theorem applyStoreOp_absent (s : Store) (id : Nat) (now : Nat) (op : StoreOp)
    (h : getFile s id = none) : applyStoreOp s id now op = s := by
  cases op <;> simp [applyStoreOp, updateFileStatus, updateFileMetadata, h]

theorem runEvents_absent (s : Store) (id : Nat) (now : Nat) (evs : List PipeEvent)
    (h : getFile s id = none) : runEvents s id now evs = s := by
  induction evs with
  | nil => rfl
  | cons e rest ih =>
    cases e with
    | store op =>
      rw [runEvents, applyStoreOp_absent s id now op h]
      exact ih
    | wait ms => rw [runEvents]; exact ih
    | aps c => rw [runEvents]; exact ih

theorem keepsProcessed_applyStoreOp (s : Store) (id : Nat) (now : Nat) (op : StoreOp)
    (h : keepsProcessed s id) : keepsProcessed (applyStoreOp s id now op) id := by
  cases hg : getFile s id with
  | none => rw [applyStoreOp_absent s id now op hg]; exact h
  | some f =>
    intro f2 hf2
    cases op with
    | setStatus st em =>
      rw [applyStoreOp, (updateFileStatus_present s id st em now f hg)] at hf2
      rw [getFile_storeSet_self] at hf2
      cases hf2
      by_cases hterm : st = "ready" ∨ st = "error"
      · simp [hterm]
      · simpa [hterm] using h f hg
    | setMetadata m =>
      rw [applyStoreOp, (updateFileMetadata_present s id m f hg)] at hf2
      rw [getFile_storeSet_self] at hf2
      cases hf2
      simpa using h f hg

theorem keepsProcessed_runEvents (s : Store) (id : Nat) (now : Nat)
    (evs : List PipeEvent) (h : keepsProcessed s id) :
    keepsProcessed (runEvents s id now evs) id := by
  induction evs generalizing s with
  | nil => exact h
  | cons e rest ih =>
    cases e with
    | store op => exact ih _ (keepsProcessed_applyStoreOp s id now op h)
    | wait ms => exact ih _ h
    | aps c => exact ih _ h

theorem find?_append_of_none {α : Type} (l1 l2 : List α) (p : α → Bool)
    (h : List.find? p l1 = none) : List.find? p (l1 ++ l2) = List.find? p l2 := by
  induction l1 with
  | nil => simp
  | cons a rest ih =>
    cases hp : p a with
    | true => rw [List.find?_cons_of_pos _ hp] at h; exact absurd h (by simp)
    | false =>
      have hp2 : ¬ p a = true := by simp [hp]
      rw [List.find?_cons_of_neg _ hp2] at h
      rw [List.cons_append, List.find?_cons_of_neg _ hp2]
      exact ih h

theorem pollsSpaced_store (op : StoreOp) (rest : List PipeEvent) :
    pollsSpaced (PipeEvent.store op :: rest) = pollsSpaced rest := rfl

theorem checkStatusEvents_error (env : APSEnv) (u b o : String) (attempts : Nat)
    (e : String) (h : env.manifestRes (attempts + 1) = .error e) :
    checkStatusEvents env u b o attempts = [PipeEvent.aps .getManifest] := by
  rw [checkStatusEvents, h]

theorem chk_pollCount (env : APSEnv) (u b o : String) :
    ∀ fuel attempts, maxAttempts - attempts ≤ fuel →
      pollCount (checkStatusEvents env u b o attempts) ≤ 1 + (maxAttempts - (attempts + 1)) := by
  intro fuel
  induction fuel with
  | zero =>
    intro attempts hle
    rw [checkStatusEvents]
    cases hm : env.manifestRes (attempts + 1) with
    | error e => simp [pollCount, List.countP_cons, isPoll]
    | ok m =>
      have h3 : ¬ (attempts + 1 < maxAttempts) := by
        simp only [maxAttempts] at *; omega
      by_cases h1 : manifestStatus m = some "success"
      · simp [h1, pollCount, List.countP_cons, isPoll]
      · by_cases h2 : manifestStatus m = some "failed"
        · simp [h1, h2, pollCount, List.countP_cons, isPoll]
        · simp [h1, h2, h3, pollCount, List.countP_cons, isPoll]
  | succ n ih =>
    intro attempts hle
    rw [checkStatusEvents]
    cases hm : env.manifestRes (attempts + 1) with
    | error e => simp [pollCount, List.countP_cons, isPoll]
    | ok m =>
      by_cases h1 : manifestStatus m = some "success"
      · simp [h1, pollCount, List.countP_cons, isPoll]
      · by_cases h2 : manifestStatus m = some "failed"
        · simp [h1, h2, pollCount, List.countP_cons, isPoll]
        · by_cases h3 : attempts + 1 < maxAttempts
          · have hrec := ih (attempts + 1) (by simp only [maxAttempts] at *; omega)
            simp only [h1, h2, h3, dif_pos]
            simp [pollCount, List.countP_cons, isPoll] at hrec ⊢
            simp only [maxAttempts] at *
            omega
          · simp [h1, h2, h3, pollCount, List.countP_cons, isPoll]

theorem chk_spaced (env : APSEnv) (u b o : String) :
    ∀ fuel attempts, maxAttempts - attempts ≤ fuel →
      pollsSpaced (PipeEvent.wait 10000 :: checkStatusEvents env u b o attempts) = true := by
  intro fuel
  induction fuel with
  | zero =>
    intro attempts hle
    rw [checkStatusEvents]
    cases hm : env.manifestRes (attempts + 1) with
    | error e => simp [pollsSpaced]
    | ok m =>
      have h3 : ¬ (attempts + 1 < maxAttempts) := by
        simp only [maxAttempts] at *; omega
      by_cases h1 : manifestStatus m = some "success"
      · simp [h1, pollsSpaced]
      · by_cases h2 : manifestStatus m = some "failed"
        · simp [h1, h2, pollsSpaced]
        · simp [h1, h2, h3, pollsSpaced]
  | succ n ih =>
    intro attempts hle
    rw [checkStatusEvents]
    cases hm : env.manifestRes (attempts + 1) with
    | error e => simp [pollsSpaced]
    | ok m =>
      by_cases h1 : manifestStatus m = some "success"
      · simp [h1, pollsSpaced]
      · by_cases h2 : manifestStatus m = some "failed"
        · simp [h1, h2, pollsSpaced]
        · by_cases h3 : attempts + 1 < maxAttempts
          · have hrec := ih (attempts + 1) (by simp only [maxAttempts] at *; omega)
            simp only [h1, h2, h3, dif_pos]
            simpa [pollsSpaced] using hrec
          · simp [h1, h2, h3, pollsSpaced]

theorem getFile_applyStatus (s : Store) (id : Nat) (st : String) (em : Option String)
    (now : Nat) (f : File) (hg : getFile s id = some f) :
    getFile (applyStoreOp s id now (.setStatus st em)) id =
      some
        { f with
          status := st,
          errorMessage := jsOrNull em,
          processedAt :=
            if st = "ready" ∨ st = "error" then some now else f.processedAt } := by
  rw [applyStoreOp, updateFileStatus_present s id st em now f hg]
  exact getFile_storeSet_self _ _ _

theorem getFile_applyMeta (s : Store) (id : Nat) (m : JsonVal) (now : Nat) (f : File)
    (hg : getFile s id = some f) :
    getFile (applyStoreOp s id now (.setMetadata m)) id =
      some { f with metadata := some m } := by
  rw [applyStoreOp, updateFileMetadata_present s id m f hg]
  exact getFile_storeSet_self _ _ _

theorem readyMetaAps_of_processing (id : Nat) (u b o : String) (s : Store)
    (hinv : processingInv s id) : readyMetaAps id u b o s := by
  intro f hf hr
  have h := hinv f hf
  rw [h] at hr
  exact absurd hr (by decide)

theorem readyMetaAps_setStatus_error (s : Store) (id : Nat) (em : Option String)
    (now : Nat) (u b o : String) :
    readyMetaAps id u b o (applyStoreOp s id now (.setStatus "error" em)) := by
  cases hg : getFile s id with
  | none =>
    rw [applyStoreOp_absent s id now _ hg]
    intro f hf hr
    rw [hg] at hf
    exact absurd hf (by simp)
  | some f =>
    intro f2 hf2 hr
    rw [getFile_applyStatus s id "error" em now f hg] at hf2
    cases hf2
    simp at hr

theorem obs_one (s : Store) (id : Nat) (now : Nat) (c : APSCall) :
    observableStores s id now [.aps c] = [s, s] := rfl

theorem obs_two (s : Store) (id : Nat) (now : Nat) (c : APSCall) (op : StoreOp) :
    observableStores s id now [.aps c, .store op] = [s, applyStoreOp s id now op] := rfl

theorem obs_three (s : Store) (id : Nat) (now : Nat) (c : APSCall) (op1 op2 : StoreOp) :
    observableStores s id now [.aps c, .store op1, .store op2] =
      [s, applyStoreOp (applyStoreOp s id now op1) id now op2] := rfl

theorem obs_aps_wait (s : Store) (id : Nat) (now : Nat) (c : APSCall) (ms : Nat)
    (rest : List PipeEvent) :
    observableStores s id now (.aps c :: .wait ms :: rest) =
      s :: s :: observableStores s id now rest := rfl

theorem chk_eq_success (env : APSEnv) (u b o : String) (attempts : Nat) (m : JsonVal)
    (hm : env.manifestRes (attempts + 1) = .ok m)
    (h1 : manifestStatus m = some "success") :
    checkStatusEvents env u b o attempts =
      [.aps .getManifest, .store (.setStatus "ready" none),
       .store (.setMetadata (apsMetadata u b o m))] := by
  rw [checkStatusEvents, hm]
  simp [h1]

theorem chk_eq_failed (env : APSEnv) (u b o : String) (attempts : Nat) (m : JsonVal)
    (hm : env.manifestRes (attempts + 1) = .ok m)
    (h2 : manifestStatus m = some "failed") :
    checkStatusEvents env u b o attempts =
      [.aps .getManifest,
       .store (.setStatus "error" (some "APS translation failed"))] := by
  have h1 : ¬ manifestStatus m = some "success" := by rw [h2]; decide
  rw [checkStatusEvents, hm]
  simp [h1, h2]

theorem chk_eq_pending_continue (env : APSEnv) (u b o : String) (attempts : Nat)
    (m : JsonVal) (hm : env.manifestRes (attempts + 1) = .ok m)
    (hs : manifestStatus m ≠ some "success") (hfl : manifestStatus m ≠ some "failed")
    (h3 : attempts + 1 < maxAttempts) :
    checkStatusEvents env u b o attempts =
      PipeEvent.aps .getManifest :: PipeEvent.wait 10000 ::
        checkStatusEvents env u b o (attempts + 1) := by
  rw [checkStatusEvents, hm]
  simp [hs, hfl, h3]

theorem chk_eq_pending_timeout (env : APSEnv) (u b o : String) (attempts : Nat)
    (m : JsonVal) (hm : env.manifestRes (attempts + 1) = .ok m)
    (hs : manifestStatus m ≠ some "success") (hfl : manifestStatus m ≠ some "failed")
    (h3 : ¬ attempts + 1 < maxAttempts) :
    checkStatusEvents env u b o attempts =
      [.aps .getManifest,
       .store (.setStatus "error" (some "Translation timeout"))] := by
  rw [checkStatusEvents, hm]
  simp [hs, hfl, h3]

theorem chk_pending_final (env : APSEnv) (u b o : String) (hp : allPending env)
    (id : Nat) (now : Nat) :
    ∀ fuel attempts s f, maxAttempts - attempts ≤ fuel → getFile s id = some f →
      ∃ f2,
        getFile (runEvents s id now (checkStatusEvents env u b o attempts)) id = some f2 ∧
          f2.status = "error" ∧ f2.errorMessage = some "Translation timeout" := by
  intro fuel
  induction fuel with
  | zero =>
    intro attempts s f hle hf
    obtain ⟨m, hm, hs, hfl⟩ := hp (attempts + 1)
    have h3 : ¬ (attempts + 1 < maxAttempts) := by
      simp only [maxAttempts] at *; omega
    rw [chk_eq_pending_timeout env u b o attempts m hm hs hfl h3]
    simp only [runEvents]
    have h4 := getFile_applyStatus s id "error" (some "Translation timeout") now f hf
    exact ⟨_, h4, rfl, rfl⟩
  | succ n ih =>
    intro attempts s f hle hf
    obtain ⟨m, hm, hs, hfl⟩ := hp (attempts + 1)
    by_cases h3 : attempts + 1 < maxAttempts
    · rw [chk_eq_pending_continue env u b o attempts m hm hs hfl h3]
      simp only [runEvents]
      exact ih (attempts + 1) s f (by simp only [maxAttempts] at *; omega) hf
    · rw [chk_eq_pending_timeout env u b o attempts m hm hs hfl h3]
      simp only [runEvents]
      have h4 := getFile_applyStatus s id "error" (some "Translation timeout") now f hf
      exact ⟨_, h4, rfl, rfl⟩

theorem chk_obs_ready (env : APSEnv) (u b o : String) (id : Nat) (now : Nat) :
    ∀ fuel attempts s, maxAttempts - attempts ≤ fuel → processingInv s id →
      ∀ t ∈ observableStores s id now (checkStatusEvents env u b o attempts),
        readyMetaAps id u b o t := by
  intro fuel
  induction fuel with
  | zero =>
    intro attempts s hle hinv
    have h3 : ¬ (attempts + 1 < maxAttempts) := by
      simp only [maxAttempts] at *; omega
    cases hm : env.manifestRes (attempts + 1) with
    | error e =>
      rw [checkStatusEvents_error env u b o attempts e hm, obs_one]
      intro t ht
      rcases List.mem_cons.mp ht with rfl | ht
      · exact readyMetaAps_of_processing id u b o t hinv
      · rcases List.mem_cons.mp ht with rfl | ht
        · exact readyMetaAps_of_processing id u b o t hinv
        · exact absurd ht (List.not_mem_nil t)
    | ok m =>
      by_cases h1 : manifestStatus m = some "success"
      · rw [chk_eq_success env u b o attempts m hm h1, obs_three]
        intro t ht
        rcases List.mem_cons.mp ht with rfl | ht
        · exact readyMetaAps_of_processing id u b o t hinv
        · rcases List.mem_cons.mp ht with rfl | ht
          · cases hg : getFile s id with
            | none =>
              rw [applyStoreOp_absent _ _ _ _ hg, applyStoreOp_absent _ _ _ _ hg]
              exact readyMetaAps_of_processing id u b o s hinv
            | some f =>
              intro f2 hf2 hr
              have h4 := getFile_applyStatus s id "ready" none now f hg
              have h5 := getFile_applyMeta _ id (apsMetadata u b o m) now _ h4
              rw [h5] at hf2
              cases hf2
              exact ⟨m, rfl⟩
          · exact absurd ht (List.not_mem_nil t)
      · by_cases h2 : manifestStatus m = some "failed"
        · rw [chk_eq_failed env u b o attempts m hm h2, obs_two]
          intro t ht
          rcases List.mem_cons.mp ht with rfl | ht
          · exact readyMetaAps_of_processing id u b o t hinv
          · rcases List.mem_cons.mp ht with rfl | ht
            · exact readyMetaAps_setStatus_error s id _ now u b o
            · exact absurd ht (List.not_mem_nil t)
        · rw [chk_eq_pending_timeout env u b o attempts m hm h1 h2 h3, obs_two]
          intro t ht
          rcases List.mem_cons.mp ht with rfl | ht
          · exact readyMetaAps_of_processing id u b o t hinv
          · rcases List.mem_cons.mp ht with rfl | ht
            · exact readyMetaAps_setStatus_error s id _ now u b o
            · exact absurd ht (List.not_mem_nil t)
  | succ n ih =>
    intro attempts s hle hinv
    cases hm : env.manifestRes (attempts + 1) with
    | error e =>
      rw [checkStatusEvents_error env u b o attempts e hm, obs_one]
      intro t ht
      rcases List.mem_cons.mp ht with rfl | ht
      · exact readyMetaAps_of_processing id u b o t hinv
      · rcases List.mem_cons.mp ht with rfl | ht
        · exact readyMetaAps_of_processing id u b o t hinv
        · exact absurd ht (List.not_mem_nil t)
    | ok m =>
      by_cases h1 : manifestStatus m = some "success"
      · rw [chk_eq_success env u b o attempts m hm h1, obs_three]
        intro t ht
        rcases List.mem_cons.mp ht with rfl | ht
        · exact readyMetaAps_of_processing id u b o t hinv
        · rcases List.mem_cons.mp ht with rfl | ht
          · cases hg : getFile s id with
            | none =>
              rw [applyStoreOp_absent _ _ _ _ hg, applyStoreOp_absent _ _ _ _ hg]
              exact readyMetaAps_of_processing id u b o s hinv
            | some f =>
              intro f2 hf2 hr
              have h4 := getFile_applyStatus s id "ready" none now f hg
              have h5 := getFile_applyMeta _ id (apsMetadata u b o m) now _ h4
              rw [h5] at hf2
              cases hf2
              exact ⟨m, rfl⟩
          · exact absurd ht (List.not_mem_nil t)
      · by_cases h2 : manifestStatus m = some "failed"
        · rw [chk_eq_failed env u b o attempts m hm h2, obs_two]
          intro t ht
          rcases List.mem_cons.mp ht with rfl | ht
          · exact readyMetaAps_of_processing id u b o t hinv
          · rcases List.mem_cons.mp ht with rfl | ht
            · exact readyMetaAps_setStatus_error s id _ now u b o
            · exact absurd ht (List.not_mem_nil t)
        · by_cases h3 : attempts + 1 < maxAttempts
          · rw [chk_eq_pending_continue env u b o attempts m hm h1 h2 h3, obs_aps_wait]
            intro t ht
            rcases List.mem_cons.mp ht with rfl | ht
            · exact readyMetaAps_of_processing id u b o t hinv
            · rcases List.mem_cons.mp ht with rfl | ht
              · exact readyMetaAps_of_processing id u b o t hinv
              · exact ih (attempts + 1) s (by simp only [maxAttempts] at *; omega) hinv t ht
          · rw [chk_eq_pending_timeout env u b o attempts m hm h1 h2 h3, obs_two]
            intro t ht
            rcases List.mem_cons.mp ht with rfl | ht
            · exact readyMetaAps_of_processing id u b o t hinv
            · rcases List.mem_cons.mp ht with rfl | ht
              · exact readyMetaAps_setStatus_error s id _ now u b o
              · exact absurd ht (List.not_mem_nil t)

theorem obs_nil (s : Store) (id : Nat) (now : Nat) :
    observableStores s id now [] = [s] := rfl

theorem obs_store_cons (s : Store) (id : Nat) (now : Nat) (op : StoreOp)
    (rest : List PipeEvent) :
    observableStores s id now (.store op :: rest) =
      observableStores (applyStoreOp s id now op) id now rest := rfl

theorem obs_wait_cons (s : Store) (id : Nat) (now : Nat) (ms : Nat)
    (rest : List PipeEvent) :
    observableStores s id now (.wait ms :: rest) =
      s :: observableStores s id now rest := rfl

theorem obs_aps_cons (s : Store) (id : Nat) (now : Nat) (c : APSCall)
    (rest : List PipeEvent) :
    observableStores s id now (.aps c :: rest) =
      s :: observableStores s id now rest := rfl

theorem pollsSpaced_aps_other (c : APSCall) (h : c ≠ .getManifest)
    (rest : List PipeEvent) :
    pollsSpaced (.aps c :: rest) = pollsSpaced rest := by
  cases c with
  | getManifest => exact absurd rfl h
  | createBucket => rfl
  | uploadFile => rfl
  | translateFile => rfl

theorem status_after_set (s : Store) (id : Nat) (st : String) (em : Option String)
    (now : Nat) (f2 : File)
    (hf2 : getFile (applyStoreOp s id now (.setStatus st em)) id = some f2) :
    f2.status = st := by
  cases hg : getFile s id with
  | none =>
    rw [applyStoreOp_absent _ _ _ _ hg, hg] at hf2
    exact Option.noConfusion hf2
  | some f =>
    rw [getFile_applyStatus s id st em now f hg] at hf2
    cases hf2
    rfl

theorem jsOrNull_prefixed (e : String) :
    jsOrNull (some ("APS error: " ++ e)) = some ("APS error: " ++ e) := by
  have h : ("APS error: " ++ e) ≠ "" := by
    intro heq
    have h2 := congrArg String.length heq
    rw [String.length_append] at h2
    have h3 : ("APS error: " : String).length = 11 := rfl
    have h4 : ("" : String).length = 0 := rfl
    rw [h3, h4] at h2
    omega
  simp [jsOrNull, h]

theorem pf_eq_nonCad (env : APSEnv) (fid : Nat) (ft origName : String) (nm : Nat)
    (hft : ft ≠ "autocad") :
    processFileEvents env fid ft origName nm =
      [PipeEvent.wait 1000, .store (.setStatus "ready" none),
       .store (.setMetadata standardMetadata)] := by
  simp [processFileEvents, hft]

theorem pf_eq_cbErr (env : APSEnv) (fid : Nat) (origName : String) (nm : Nat) (e : String)
    (hcb : env.createBucketRes = .error e) :
    processFileEvents env fid "autocad" origName nm =
      [PipeEvent.store (.setStatus "processing" none), .aps .createBucket,
       .store (.setStatus "error" (some ("APS error: " ++ e)))] := by
  simp [processFileEvents, hcb]

theorem pf_eq_upErr (env : APSEnv) (fid : Nat) (origName : String) (nm : Nat) (e : String)
    (jb : JsonVal) (hcb : env.createBucketRes = .ok jb)
    (hup : env.uploadRes = .error e) :
    processFileEvents env fid "autocad" origName nm =
      [PipeEvent.store (.setStatus "processing" none), .aps .createBucket,
       .aps .uploadFile, .store (.setStatus "error" (some ("APS error: " ++ e)))] := by
  simp [processFileEvents, hcb, hup]

theorem pf_eq_trErr (env : APSEnv) (fid : Nat) (origName : String) (nm : Nat) (e : String)
    (jb : JsonVal) (oid : String) (hcb : env.createBucketRes = .ok jb)
    (hup : env.uploadRes = .ok oid) (htr : env.translateRes = .error e) :
    processFileEvents env fid "autocad" origName nm =
      [PipeEvent.store (.setStatus "processing" none), .aps .createBucket,
       .aps .uploadFile, .aps .translateFile,
       .store (.setStatus "error" (some ("APS error: " ++ e)))] := by
  simp [processFileEvents, hcb, hup, htr]

theorem pf_eq_ok (env : APSEnv) (fid : Nat) (origName : String) (nm : Nat)
    (jb jt : JsonVal) (oid : String) (hcb : env.createBucketRes = .ok jb)
    (hup : env.uploadRes = .ok oid) (htr : env.translateRes = .ok jt) :
    processFileEvents env fid "autocad" origName nm =
      PipeEvent.store (.setStatus "processing" none) :: PipeEvent.aps .createBucket ::
        PipeEvent.aps .uploadFile :: PipeEvent.aps .translateFile ::
          PipeEvent.wait 10000 ::
            checkStatusEvents env (APSService.encodeBase64Url oid)
              (pipeBucketKey nm) (pipeObjectKey fid origName) 0 := by
  simp [processFileEvents, hcb, hup, htr]

theorem sextet_safe : ∀ n : Fin 64, base64UrlSafe (b64ToUrl (sextetChar n.val)) = true := by
  decide

theorem utf8EncodeCodepoint_lt (n : Nat) (h : n < 1114112) :
    ∀ x ∈ utf8EncodeCodepoint n, x < 256 := by
  intro x hx
  by_cases h1 : n < 128
  · simp [utf8EncodeCodepoint, h1] at hx
    omega
  · by_cases h2 : n < 2048
    · simp [utf8EncodeCodepoint, h1, h2] at hx
      rcases hx with rfl | rfl <;> omega
    · by_cases h3 : n < 65536
      · simp [utf8EncodeCodepoint, h1, h2, h3] at hx
        rcases hx with rfl | rfl | rfl <;> omega
      · simp [utf8EncodeCodepoint, h1, h2, h3] at hx
        rcases hx with rfl | rfl | rfl | rfl <;> omega

theorem utf8Bytes_lt (cs : List Char) : ∀ x ∈ utf8Bytes cs, x < 256 := by
  induction cs with
  | nil => intro x hx; exact absurd hx (List.not_mem_nil x)
  | cons c rest ih =>
    intro x hx
    rw [utf8Bytes] at hx
    rcases List.mem_append.mp hx with hx | hx
    · have hc : c.toNat < 1114112 := by
        rcases c.valid with h | h
        · exact Nat.lt_trans h (by decide)
        · exact h.2
      exact utf8EncodeCodepoint_lt c.toNat hc x hx
    · exact ih x hx

theorem b64Chunks_safe : ∀ bs : List Nat, (∀ x ∈ bs, x < 256) →
    ∀ c ∈ b64Chunks bs, c = '=' ∨ base64UrlSafe (b64ToUrl c) = true := by
  intro bs
  induction bs using b64Chunks.induct with
  | case1 b0 b1 b2 rest ih =>
    intro hb c hc
    rw [b64Chunks] at hc
    have hb0 : b0 < 256 := hb b0 (by simp)
    have hb1 : b1 < 256 := hb b1 (by simp)
    have hb2 : b2 < 256 := hb b2 (by simp)
    rcases List.mem_cons.mp hc with rfl | hc
    · exact Or.inr (sextet_safe ⟨b0 / 4, by omega⟩)
    rcases List.mem_cons.mp hc with rfl | hc
    · exact Or.inr (sextet_safe ⟨b0 % 4 * 16 + b1 / 16, by omega⟩)
    rcases List.mem_cons.mp hc with rfl | hc
    · exact Or.inr (sextet_safe ⟨b1 % 16 * 4 + b2 / 64, by omega⟩)
    rcases List.mem_cons.mp hc with rfl | hc
    · exact Or.inr (sextet_safe ⟨b2 % 64, by omega⟩)
    · exact ih (fun x hx => hb x (by simp [hx])) c hc
  | case2 b0 b1 =>
    intro hb c hc
    rw [b64Chunks] at hc
    have hb0 : b0 < 256 := hb b0 (by simp)
    have hb1 : b1 < 256 := hb b1 (by simp)
    rcases List.mem_cons.mp hc with rfl | hc
    · exact Or.inr (sextet_safe ⟨b0 / 4, by omega⟩)
    rcases List.mem_cons.mp hc with rfl | hc
    · exact Or.inr (sextet_safe ⟨b0 % 4 * 16 + b1 / 16, by omega⟩)
    rcases List.mem_cons.mp hc with rfl | hc
    · exact Or.inr (sextet_safe ⟨b1 % 16 * 4, by omega⟩)
    rcases List.mem_cons.mp hc with rfl | hc
    · exact Or.inl rfl
    · exact absurd hc (List.not_mem_nil c)
  | case3 b0 =>
    intro hb c hc
    rw [b64Chunks] at hc
    have hb0 : b0 < 256 := hb b0 (by simp)
    rcases List.mem_cons.mp hc with rfl | hc
    · exact Or.inr (sextet_safe ⟨b0 / 4, by omega⟩)
    rcases List.mem_cons.mp hc with rfl | hc
    · exact Or.inr (sextet_safe ⟨b0 % 4 * 16, by omega⟩)
    rcases List.mem_cons.mp hc with rfl | hc
    · exact Or.inl rfl
    rcases List.mem_cons.mp hc with rfl | hc
    · exact Or.inl rfl
    · exact absurd hc (List.not_mem_nil c)
  | case4 =>
    intro hb c hc
    rw [b64Chunks] at hc
    exact absurd hc (List.not_mem_nil c)

/-! Claim theorems. -/

/-- Claim C1: the spec says the external retry command (PATCH status
`processing` on an ERROR record) re-invokes the full conversion pipeline from
step 1.  The code does not: the handler only calls `updateFileStatus` and
schedules no `processFile` run, so the record merely reads PROCESSING and never
undergoes the PROCESSING to READY or ERROR steps again, while the client toast
claims processing restarted.  The upload route, by contrast, schedules exactly
one run per saved file. -/
theorem retryOnlyFlipsStatus :
    (patchStatusHandler [(1, sampleFile "error")] 1
        { status := "processing", errorMessage := none } 7).2.2 = [] ∧
    (getFile (patchStatusHandler [(1, sampleFile "error")] 1
        { status := "processing", errorMessage := none } 7).1 1).map File.status =
      some "processing" ∧
    (uploadOneFile { store := [], currentId := 1 } sampleInsert "uploads/abc123"
        "plan.dwg" 0).2.2 =
      [{ fileId := 1, fileType := "autocad", filePath := "uploads/abc123",
         originalName := "plan.dwg" }] :=
  ⟨rfl, rfl, rfl⟩

/-- Claim C2: at every externally observable point of a pipeline run started on a
freshly uploaded record (status UPLOADING), a reader that sees the record with
status READY sees the complete metadata object for its detected type, never null
and never a partial value. -/
theorem readyImpliesCompleteMetadata (env : APSEnv) (fid : Nat)
    (ft origName : String) (nm : Nat) (s : Store) (now : Nat) (f0 : File) (i : Nat)
    (h0 : getFile s fid = some f0) (hu : f0.status = "uploading") :
    ∀ f, getFile ((observableStores s fid now
        (processFileEvents env fid ft origName nm)).getD i s) fid = some f →
      f.status = "ready" → completeMetaFor ft f := by
  have hmem : ∀ t ∈ observableStores s fid now (processFileEvents env fid ft origName nm),
      ∀ f, getFile t fid = some f → f.status = "ready" → completeMetaFor ft f := by
    by_cases hft : ft = "autocad"
    · subst hft
      have hconv : ∀ (u b2 o2 : String) (t : Store), readyMetaAps fid u b2 o2 t →
          ∀ f, getFile t fid = some f → f.status = "ready" →
            completeMetaFor "autocad" f := by
        intro u b2 o2 t hra f hf hr
        obtain ⟨m, hm⟩ := hra f hf hr
        have hiff : completeMetaFor "autocad" f ↔
            ∃ u3 b3 o3 m3, f.metadata = some (apsMetadata u3 b3 o3 m3) := by
          simp [completeMetaFor]
        exact hiff.mpr ⟨u, b2, o2, m, hm⟩
      cases hcb : env.createBucketRes with
      | error e =>
        rw [pf_eq_cbErr env fid origName nm e hcb]
        simp only [obs_store_cons, obs_aps_cons, obs_nil]
        intro t ht f hf hr
        rcases List.mem_cons.mp ht with rfl | ht
        · rw [status_after_set _ _ _ _ _ _ hf] at hr
          exact absurd hr (by decide)
        rcases List.mem_cons.mp ht with rfl | ht
        · rw [status_after_set _ _ _ _ _ _ hf] at hr
          exact absurd hr (by decide)
        · exact absurd ht (List.not_mem_nil t)
      | ok jb =>
        cases hup : env.uploadRes with
        | error e =>
          rw [pf_eq_upErr env fid origName nm e jb hcb hup]
          simp only [obs_store_cons, obs_aps_cons, obs_nil]
          intro t ht f hf hr
          rcases List.mem_cons.mp ht with rfl | ht
          · rw [status_after_set _ _ _ _ _ _ hf] at hr
            exact absurd hr (by decide)
          rcases List.mem_cons.mp ht with rfl | ht
          · rw [status_after_set _ _ _ _ _ _ hf] at hr
            exact absurd hr (by decide)
          rcases List.mem_cons.mp ht with rfl | ht
          · rw [status_after_set _ _ _ _ _ _ hf] at hr
            exact absurd hr (by decide)
          · exact absurd ht (List.not_mem_nil t)
        | ok oid =>
          cases htr : env.translateRes with
          | error e =>
            rw [pf_eq_trErr env fid origName nm e jb oid hcb hup htr]
            simp only [obs_store_cons, obs_aps_cons, obs_nil]
            intro t ht f hf hr
            rcases List.mem_cons.mp ht with rfl | ht
            · rw [status_after_set _ _ _ _ _ _ hf] at hr
              exact absurd hr (by decide)
            rcases List.mem_cons.mp ht with rfl | ht
            · rw [status_after_set _ _ _ _ _ _ hf] at hr
              exact absurd hr (by decide)
            rcases List.mem_cons.mp ht with rfl | ht
            · rw [status_after_set _ _ _ _ _ _ hf] at hr
              exact absurd hr (by decide)
            rcases List.mem_cons.mp ht with rfl | ht
            · rw [status_after_set _ _ _ _ _ _ hf] at hr
              exact absurd hr (by decide)
            · exact absurd ht (List.not_mem_nil t)
          | ok jt =>
            rw [pf_eq_ok env fid origName nm jb jt oid hcb hup htr]
            simp only [obs_store_cons, obs_aps_cons, obs_wait_cons]
            have hinv1 : processingInv
                (applyStoreOp s fid now (.setStatus "processing" none)) fid := by
              intro f3 hf3
              exact status_after_set _ _ _ _ _ _ hf3
            intro t ht
            rcases List.mem_cons.mp ht with rfl | ht
            · intro f hf hr
              rw [status_after_set _ _ _ _ _ _ hf] at hr
              exact absurd hr (by decide)
            rcases List.mem_cons.mp ht with rfl | ht
            · intro f hf hr
              rw [status_after_set _ _ _ _ _ _ hf] at hr
              exact absurd hr (by decide)
            rcases List.mem_cons.mp ht with rfl | ht
            · intro f hf hr
              rw [status_after_set _ _ _ _ _ _ hf] at hr
              exact absurd hr (by decide)
            rcases List.mem_cons.mp ht with rfl | ht
            · intro f hf hr
              rw [status_after_set _ _ _ _ _ _ hf] at hr
              exact absurd hr (by decide)
            · exact hconv _ _ _ t
                (chk_obs_ready env (APSService.encodeBase64Url oid)
                  (pipeBucketKey nm) (pipeObjectKey fid origName) fid now
                  maxAttempts 0 _ (Nat.le_refl _) hinv1 t ht)
    · rw [pf_eq_nonCad env fid ft origName nm hft]
      simp only [obs_wait_cons, obs_store_cons, obs_nil]
      intro t ht f hf hr
      rcases List.mem_cons.mp ht with rfl | ht
      · rw [h0] at hf
        cases hf
        rw [hu] at hr
        exact absurd hr (by decide)
      rcases List.mem_cons.mp ht with rfl | ht
      · cases hg : getFile s fid with
        | none =>
          rw [applyStoreOp_absent _ _ _ _ hg, applyStoreOp_absent _ _ _ _ hg,
            hg] at hf
          exact Option.noConfusion hf
        | some fx =>
          have h4 := getFile_applyStatus s fid "ready" none now fx hg
          have h5 := getFile_applyMeta _ fid standardMetadata now _ h4
          rw [h5] at hf
          cases hf
          simp [completeMetaFor, hft]
      · exact absurd ht (List.not_mem_nil t)
  by_cases hi : i <
      (observableStores s fid now (processFileEvents env fid ft origName nm)).length
  · rw [List.getD_eq_getElem _ s hi]
    exact hmem _ (List.getElem_mem hi)
  · rw [List.getD_eq_default _ s (by omega)]
    intro f hf hr
    rw [h0] at hf
    cases hf
    rw [hu] at hr
    exact absurd hr (by decide)

/-- Claim C2 witness: the final observable state of a PDF run shows READY with
the full standard metadata. -/
theorem readyImpliesCompleteMetadata_witness :
    completeMetaFor "pdf"
      { samplePdf "uploading" with
        status := "ready",
        errorMessage := none,
        processedAt := some 7,
        metadata := some standardMetadata } := by
  have h := readyImpliesCompleteMetadata envSuccess 1 "pdf" "spec.pdf" 99
    [(1, samplePdf "uploading")] 7 (samplePdf "uploading") 1 rfl rfl
  exact h _ rfl rfl

/-- Claim C3 counterexample: the spec claims the errorMessage of a failed
translation is exactly `translation failed`; the code writes
`APS translation failed` (and `Translation timeout`, capitalised, on timeout). -/
theorem translationFailedMessage_cex :
    (getFile (runEvents [(1, sampleFile "uploading")] 1 7
        (processFileEvents envFailed 1 "autocad" "plan.dwg" 99)) 1).map
      File.errorMessage = some (some "APS translation failed") ∧
    "APS translation failed" ≠ "translation failed" := by
  constructor
  · rw [pf_eq_ok envFailed 1 "plan.dwg" 99 (JsonVal.obj []) (JsonVal.obj [])
      "urn:adsk.objects:os.object:bkt/plan.dwg" rfl rfl rfl,
      chk_eq_failed envFailed _ _ _ 0 (manifestDoc "failed") rfl rfl]
    rfl
  · decide

/-- Claim C3 amended: each poll yields exactly one outcome — a success manifest
moves the record to READY with metadata `apsMetadata` (keys viewerType, urn,
bucketKey, objectKey, status translated, derivatives); a failed manifest moves it
to ERROR with errorMessage `APS translation failed`; all-pending manifests end in
ERROR with errorMessage `Translation timeout`. -/
theorem pollOutcomes (env : APSEnv) (u b o : String) (id now attempts : Nat)
    (s : Store) (f : File) (hf : getFile s id = some f) :
    (∀ m, env.manifestRes (attempts + 1) = .ok m →
      manifestStatus m = some "success" →
      ∃ f2, getFile (runEvents s id now (checkStatusEvents env u b o attempts)) id =
          some f2 ∧ f2.status = "ready" ∧ f2.metadata = some (apsMetadata u b o m)) ∧
    (∀ m, env.manifestRes (attempts + 1) = .ok m →
      manifestStatus m = some "failed" →
      ∃ f2, getFile (runEvents s id now (checkStatusEvents env u b o attempts)) id =
          some f2 ∧ f2.status = "error" ∧
          f2.errorMessage = some "APS translation failed") ∧
    (allPending env →
      ∃ f2, getFile (runEvents s id now (checkStatusEvents env u b o attempts)) id =
          some f2 ∧ f2.status = "error" ∧
          f2.errorMessage = some "Translation timeout") := by
  refine ⟨?_, ?_, ?_⟩
  · intro m hm h1
    rw [chk_eq_success env u b o attempts m hm h1]
    simp only [runEvents]
    have h4 := getFile_applyStatus s id "ready" none now f hf
    have h5 := getFile_applyMeta _ id (apsMetadata u b o m) now _ h4
    exact ⟨_, h5, rfl, rfl⟩
  · intro m hm h2
    rw [chk_eq_failed env u b o attempts m hm h2]
    simp only [runEvents]
    have h4 := getFile_applyStatus s id "error" (some "APS translation failed") now f hf
    exact ⟨_, h4, rfl, rfl⟩
  · intro hp
    exact chk_pending_final env u b o hp id now (maxAttempts - attempts) attempts s f
      (Nat.le_refl _) hf

/-- Claim C3 witness: a failed first poll ends in ERROR with the code message. -/
theorem pollOutcomes_witness :
    ∃ f2, getFile (runEvents [(1, sampleFile "uploading")] 1 7
        (checkStatusEvents envFailed "u" "b" "o" 0)) 1 = some f2 ∧
      f2.status = "error" ∧ f2.errorMessage = some "APS translation failed" := by
  have h := pollOutcomes envFailed "u" "b" "o" 1 7 0 [(1, sampleFile "uploading")]
    (sampleFile "uploading") rfl
  exact h.2.1 (manifestDoc "failed") rfl rfl

/-- Claim C4 counterexample: the spec claims every exception raised during steps
2 to 5 — including any manifest poll — immediately moves the record to ERROR.  A
throwing poll is not caught by any handler: the record stays PROCESSING with no
errorMessage. -/
theorem pollExceptionLeavesProcessing_cex :
    (getFile (runEvents [(1, sampleFile "uploading")] 1 7
        (processFileEvents envPollThrows 1 "autocad" "plan.dwg" 99)) 1).map
      File.status = some "processing" ∧
    (getFile (runEvents [(1, sampleFile "uploading")] 1 7
        (processFileEvents envPollThrows 1 "autocad" "plan.dwg" 99)) 1).map
      File.errorMessage = some none := by
  have he : processFileEvents envPollThrows 1 "autocad" "plan.dwg" 99 =
      [PipeEvent.store (.setStatus "processing" none), .aps .createBucket,
       .aps .uploadFile, .aps .translateFile, .wait 10000, .aps .getManifest] := by
    rw [pf_eq_ok envPollThrows 1 "plan.dwg" 99 (JsonVal.obj []) (JsonVal.obj [])
      "urn:adsk.objects:os.object:bkt/plan.dwg" rfl rfl rfl,
      checkStatusEvents_error envPollThrows _ _ _ 0 "getaddrinfo ENOTFOUND" rfl]
  constructor
  · rw [he]; rfl
  · rw [he]; rfl

/-- Claim C4 amended: an exception in steps 2 to 4 (bucket creation, upload, job
submission) immediately moves the record to ERROR with message `APS error: `
followed by the thrown text, and no poll ever runs; an exception thrown by a
manifest poll ends the run with no further store write and no further poll, the
record left as it was. -/
theorem apsErrorMapping (env : APSEnv) (fid : Nat) (origName : String) (nm : Nat)
    (s : Store) (id now : Nat) (f : File) (hf : getFile s id = some f) :
    (∀ e, env.createBucketRes = .error e →
      (∃ f2, getFile (runEvents s id now
          (processFileEvents env fid "autocad" origName nm)) id = some f2 ∧
        f2.status = "error" ∧ f2.errorMessage = some ("APS error: " ++ e)) ∧
      pollCount (processFileEvents env fid "autocad" origName nm) = 0) ∧
    (∀ e jb, env.createBucketRes = .ok jb → env.uploadRes = .error e →
      (∃ f2, getFile (runEvents s id now
          (processFileEvents env fid "autocad" origName nm)) id = some f2 ∧
        f2.status = "error" ∧ f2.errorMessage = some ("APS error: " ++ e)) ∧
      pollCount (processFileEvents env fid "autocad" origName nm) = 0) ∧
    (∀ e jb oid, env.createBucketRes = .ok jb → env.uploadRes = .ok oid →
      env.translateRes = .error e →
      (∃ f2, getFile (runEvents s id now
          (processFileEvents env fid "autocad" origName nm)) id = some f2 ∧
        f2.status = "error" ∧ f2.errorMessage = some ("APS error: " ++ e)) ∧
      pollCount (processFileEvents env fid "autocad" origName nm) = 0) ∧
    (∀ u b o attempts e, env.manifestRes (attempts + 1) = .error e →
      checkStatusEvents env u b o attempts = [PipeEvent.aps .getManifest]) := by
  refine ⟨?_, ?_, ?_, ?_⟩
  · intro e hcb
    rw [pf_eq_cbErr env fid origName nm e hcb]
    refine ⟨?_, rfl⟩
    simp only [runEvents]
    have h1 := getFile_applyStatus s id "processing" none now f hf
    have h2 := getFile_applyStatus _ id "error" (some ("APS error: " ++ e)) now _ h1
    exact ⟨_, h2, rfl, jsOrNull_prefixed e⟩
  · intro e jb hcb hup
    rw [pf_eq_upErr env fid origName nm e jb hcb hup]
    refine ⟨?_, rfl⟩
    simp only [runEvents]
    have h1 := getFile_applyStatus s id "processing" none now f hf
    have h2 := getFile_applyStatus _ id "error" (some ("APS error: " ++ e)) now _ h1
    exact ⟨_, h2, rfl, jsOrNull_prefixed e⟩
  · intro e jb oid hcb hup htr
    rw [pf_eq_trErr env fid origName nm e jb oid hcb hup htr]
    refine ⟨?_, rfl⟩
    simp only [runEvents]
    have h1 := getFile_applyStatus s id "processing" none now f hf
    have h2 := getFile_applyStatus _ id "error" (some ("APS error: " ++ e)) now _ h1
    exact ⟨_, h2, rfl, jsOrNull_prefixed e⟩
  · intro u b o attempts e hm
    exact checkStatusEvents_error env u b o attempts e hm

/-- Claim C4 witness: a thrown bucket creation maps to ERROR with the prefixed
message. -/
theorem apsErrorMapping_witness :
    ∃ f2, getFile (runEvents [(1, sampleFile "uploading")] 1 7
        (processFileEvents envCbFails 1 "autocad" "plan.dwg" 99)) 1 = some f2 ∧
      f2.status = "error" ∧
      f2.errorMessage = some ("APS error: " ++ "401 Unauthorized") := by
  have h := apsErrorMapping envCbFails 1 "plan.dwg" 99 [(1, sampleFile "uploading")]
    1 7 (sampleFile "uploading") rfl
  exact (h.1 "401 Unauthorized" rfl).1

/-- Claim C5: a pipeline run performs at most 30 manifest polls, every poll is
preceded by a fixed 10000 ms timer wait, and when every poll resolves to a
pending manifest the run still terminates with the record in READY or ERROR. -/
theorem pollLoopBounded (env : APSEnv) (fid : Nat) (ft origName : String)
    (nm : Nat) (s : Store) (now : Nat) (f0 : File) :
    pollCount (processFileEvents env fid ft origName nm) ≤ 30 ∧
    pollsSpaced (processFileEvents env fid ft origName nm) = true ∧
    (allPending env → getFile s fid = some f0 →
      ∃ f2, getFile (runEvents s fid now
          (processFileEvents env fid ft origName nm)) fid = some f2 ∧
        (f2.status = "ready" ∨ f2.status = "error")) := by
  by_cases hft : ft = "autocad"
  · subst hft
    cases hcb : env.createBucketRes with
    | error e =>
      rw [pf_eq_cbErr env fid origName nm e hcb]
      refine ⟨by simp [pollCount, List.countP_cons, isPoll], ?_, ?_⟩
      · rw [pollsSpaced_store, pollsSpaced_aps_other _ (by decide), pollsSpaced_store]
        rfl
      · intro hp hf
        simp only [runEvents]
        have h1 := getFile_applyStatus s fid "processing" none now f0 hf
        have h2 := getFile_applyStatus _ fid "error" (some ("APS error: " ++ e)) now _ h1
        exact ⟨_, h2, Or.inr rfl⟩
    | ok jb =>
      cases hup : env.uploadRes with
      | error e =>
        rw [pf_eq_upErr env fid origName nm e jb hcb hup]
        refine ⟨by simp [pollCount, List.countP_cons, isPoll], ?_, ?_⟩
        · rw [pollsSpaced_store, pollsSpaced_aps_other _ (by decide),
            pollsSpaced_aps_other _ (by decide), pollsSpaced_store]
          rfl
        · intro hp hf
          simp only [runEvents]
          have h1 := getFile_applyStatus s fid "processing" none now f0 hf
          have h2 := getFile_applyStatus _ fid "error" (some ("APS error: " ++ e)) now _ h1
          exact ⟨_, h2, Or.inr rfl⟩
      | ok oid =>
        cases htr : env.translateRes with
        | error e =>
          rw [pf_eq_trErr env fid origName nm e jb oid hcb hup htr]
          refine ⟨by simp [pollCount, List.countP_cons, isPoll], ?_, ?_⟩
          · rw [pollsSpaced_store, pollsSpaced_aps_other _ (by decide),
              pollsSpaced_aps_other _ (by decide), pollsSpaced_aps_other _ (by decide),
              pollsSpaced_store]
            rfl
          · intro hp hf
            simp only [runEvents]
            have h1 := getFile_applyStatus s fid "processing" none now f0 hf
            have h2 := getFile_applyStatus _ fid "error" (some ("APS error: " ++ e)) now _ h1
            exact ⟨_, h2, Or.inr rfl⟩
        | ok jt =>
          rw [pf_eq_ok env fid origName nm jb jt oid hcb hup htr]
          refine ⟨?_, ?_, ?_⟩
          · have hb := chk_pollCount env (APSService.encodeBase64Url oid)
              (pipeBucketKey nm) (pipeObjectKey fid origName) maxAttempts 0
              (Nat.le_refl _)
            simp [pollCount, List.countP_cons, isPoll] at hb ⊢
            simp only [maxAttempts] at hb
            omega
          · rw [pollsSpaced_store, pollsSpaced_aps_other _ (by decide),
              pollsSpaced_aps_other _ (by decide), pollsSpaced_aps_other _ (by decide)]
            exact chk_spaced env _ _ _ maxAttempts 0 (Nat.le_refl _)
          · intro hp hf
            simp only [runEvents]
            have h1 := getFile_applyStatus s fid "processing" none now f0 hf
            obtain ⟨f2, hg2, hst, hem⟩ := chk_pending_final env
              (APSService.encodeBase64Url oid) (pipeBucketKey nm)
              (pipeObjectKey fid origName) hp fid now maxAttempts 0 _ _
              (Nat.le_refl _) h1
            exact ⟨f2, hg2, Or.inr hst⟩
  · rw [pf_eq_nonCad env fid ft origName nm hft]
    refine ⟨by simp [pollCount, List.countP_cons, isPoll], rfl, ?_⟩
    intro hp hf
    simp only [runEvents]
    have h4 := getFile_applyStatus s fid "ready" none now f0 hf
    have h5 := getFile_applyMeta _ fid standardMetadata now _ h4
    exact ⟨_, h5, Or.inl rfl⟩

/-- Claim C5 witness: under permanently pending manifests the sample AUTOCAD run
still terminates in READY or ERROR. -/
theorem pollLoopBounded_witness :
    ∃ f2, getFile (runEvents [(1, sampleFile "uploading")] 1 7
        (processFileEvents envPending 1 "autocad" "plan.dwg" 99)) 1 = some f2 ∧
      (f2.status = "ready" ∨ f2.status = "error") := by
  have h := pollLoopBounded envPending 1 "autocad" "plan.dwg" 99
    [(1, sampleFile "uploading")] 7 (sampleFile "uploading")
  refine h.2.2 ?_ rfl
  intro a
  exact ⟨manifestDoc "inprogress", rfl, by decide, by decide⟩

/-- Claim C6 counterexample: the spec says a non-CAD run first transitions the
record to PROCESSING; the code never writes PROCESSING on the non-CAD path — the
record goes straight from UPLOADING to READY. -/
theorem nonCadSkipsProcessing_cex :
    (processFileEvents envSuccess 1 "pdf" "spec.pdf" 99).countP setsProcessing = 0 ∧
    (getFile (runEvents [(1, samplePdf "uploading")] 1 7
        (processFileEvents envSuccess 1 "pdf" "spec.pdf" 99)) 1).map File.status =
      some "ready" :=
  ⟨rfl, rfl⟩

/-- Claim C6 amended: a non-CAD run is exactly a 1000 ms timer wait followed by
the READY write and the standard metadata write; it never writes PROCESSING and
makes no remote APS call. -/
theorem nonCadPipeline (env : APSEnv) (fid : Nat) (ft origName : String) (nm : Nat)
    (hft : ft ≠ "autocad") :
    processFileEvents env fid ft origName nm =
      [PipeEvent.wait 1000, .store (.setStatus "ready" none),
       .store (.setMetadata standardMetadata)] ∧
    (processFileEvents env fid ft origName nm).countP isApsCall = 0 ∧
    (processFileEvents env fid ft origName nm).countP setsProcessing = 0 := by
  have he := pf_eq_nonCad env fid ft origName nm hft
  refine ⟨he, ?_, ?_⟩
  · rw [he]; rfl
  · rw [he]; rfl

/-- Claim C6 witness: the PDF run makes no APS call and no PROCESSING write. -/
theorem nonCadPipeline_witness :
    processFileEvents envSuccess 1 "pdf" "spec.pdf" 99 =
      [PipeEvent.wait 1000, .store (.setStatus "ready" none),
       .store (.setMetadata standardMetadata)] ∧
    (processFileEvents envSuccess 1 "pdf" "spec.pdf" 99).countP isApsCall = 0 ∧
    (processFileEvents envSuccess 1 "pdf" "spec.pdf" 99).countP setsProcessing = 0 :=
  nonCadPipeline envSuccess 1 "pdf" "spec.pdf" 99 (by decide)

/-- Claim C7 counterexample: the spec says processedAt is set exactly once and is
non-null iff the status is READY or ERROR.  After ERROR at time 5 and the retry
PATCH, the record reads PROCESSING with processedAt still 5; a second terminal
transition at time 9 re-stamps processedAt to 9. -/
theorem processedAtRetry_cex :
    (getFile retryS2 1).map File.status = some "processing" ∧
    (getFile retryS2 1).map File.processedAt = some (some 5) ∧
    (getFile retryS3 1).map File.status = some "ready" ∧
    (getFile retryS3 1).map File.processedAt = some (some 9) :=
  ⟨rfl, rfl, rfl, rfl⟩

/-- Claim C7 amended: updateFileStatus overwrites processedAt with the current
time on every transition into READY or ERROR and preserves it on every other
status, updateFileMetadata never touches it, and once processedAt is non-null no
sequence of pipeline writes ever returns it to null; hence a retried record can
read PROCESSING with a stale non-null processedAt. -/
theorem processedAtDiscipline (s : Store) (id : Nat) (st : String)
    (em : Option String) (now : Nat) (m : JsonVal) (f : File)
    (hf : getFile s id = some f) :
    ((st = "ready" ∨ st = "error") →
      (updateFileStatus s id st em now).1 =
        some
          { f with
            status := st,
            errorMessage := jsOrNull em,
            processedAt := some now }) ∧
    (¬ (st = "ready" ∨ st = "error") →
      (updateFileStatus s id st em now).1 =
        some
          { f with
            status := st,
            errorMessage := jsOrNull em,
            processedAt := f.processedAt }) ∧
    (updateFileMetadata s id m).1 = some { f with metadata := some m } ∧
    (∀ evs now2, f.processedAt.isSome = true →
      ∀ f2, getFile (runEvents s id now2 evs) id = some f2 →
        f2.processedAt.isSome = true) := by
  refine ⟨?_, ?_, ?_, ?_⟩
  · intro ht
    rw [updateFileStatus_present s id st em now f hf, if_pos ht]
  · intro ht
    rw [updateFileStatus_present s id st em now f hf, if_neg ht]
  · rw [updateFileMetadata_present s id m f hf]
  · intro evs now2 hsome f2 hf2
    have hk : keepsProcessed s id := by
      intro f3 hf3
      rw [hf] at hf3
      cases hf3
      exact hsome
    exact keepsProcessed_runEvents s id now2 evs hk f2 hf2

/-- Claim C7 witness: a terminal transition stamps processedAt with the given
time. -/
theorem processedAtDiscipline_witness :
    (updateFileStatus [(1, sampleFile "uploading")] 1 "error"
        (some "APS translation failed") 5).1 =
      some
        { sampleFile "uploading" with
          status := "error",
          errorMessage := jsOrNull (some "APS translation failed"),
          processedAt := some 5 } := by
  have h := processedAtDiscipline [(1, sampleFile "uploading")] 1 "error"
    (some "APS translation failed") 5 standardMetadata (sampleFile "uploading") rfl
  exact h.1 (Or.inr rfl)

/-- Claim C8: once a record is deleted from the store, every later pipeline
write addressed to its id — a status update, a metadata update, or any whole
event trace — is a no-op returning no record and leaving the store unchanged. -/
theorem deletedRecordWritesNoop (s : Store) (id : Nat) (st : String)
    (em : Option String) (now : Nat) (m : JsonVal) (evs : List PipeEvent)
    (now2 : Nat) (hwf : StoreWF s) :
    getFile (deleteFile s id).2 id = none ∧
    updateFileStatus (deleteFile s id).2 id st em now = (none, (deleteFile s id).2) ∧
    updateFileMetadata (deleteFile s id).2 id m = (none, (deleteFile s id).2) ∧
    runEvents (deleteFile s id).2 id now2 evs = (deleteFile s id).2 := by
  have h : getFile (deleteFile s id).2 id = none := getFile_storeDelete s id hwf
  exact ⟨h, updateFileStatus_absent _ _ _ _ _ h, updateFileMetadata_absent _ _ _ h,
    runEvents_absent _ _ _ _ h⟩

/-- Claim C8 witness: deleting the sample record makes the retry-style status
write a no-op. -/
theorem deletedRecordWritesNoop_witness :
    getFile (deleteFile [(1, sampleFile "ready")] 1).2 1 = none ∧
    updateFileStatus (deleteFile [(1, sampleFile "ready")] 1).2 1 "processing"
        none 9 = (none, (deleteFile [(1, sampleFile "ready")] 1).2) := by
  have h := deletedRecordWritesNoop [(1, sampleFile "ready")] 1 "processing" none 9
    standardMetadata [] 0 (by simp [StoreWF])
  exact ⟨h.1, h.2.1⟩

/-- Claim C9: createBucket is idempotent — a 409 conflict on the POST resolves to
the GET details result instead of failing, and two successive createBucket calls
with the same key against the remote OSS service return the same bucket
identity. -/
theorem createBucketIdempotent :
    (∀ env msg, env.postResult = HttpResult.err (some 409) msg →
      APSService.createBucket env = env.detailsResult) ∧
    (∀ st key, ∃ bkt,
      (createBucketAgainst st key).1 = .ok bkt ∧
      (createBucketAgainst (createBucketAgainst st key).2 key).1 = .ok bkt) := by
  constructor
  · intro env msg h
    simp [APSService.createBucket, h]
  · intro st key
    cases hfind : st.buckets.find? (fun p => p.1 == key) with
    | none =>
      refine ⟨mkBucket key, ?_, ?_⟩
      · simp [createBucketAgainst, remotePost, hfind, APSService.createBucket]
      · have happ : (st.buckets ++ [(key, mkBucket key)]).find?
            (fun p => p.1 == key) = some (key, mkBucket key) := by
          rw [find?_append_of_none _ _ _ hfind]
          simp
        simp [createBucketAgainst, remotePost, hfind, happ,
          APSService.createBucket, remoteDetails]
    | some pr =>
      refine ⟨pr.2, ?_, ?_⟩
      · simp [createBucketAgainst, remotePost, hfind, APSService.createBucket,
          remoteDetails]
      · have h2 : (createBucketAgainst st key).2 = st := by
          simp [createBucketAgainst, remotePost, hfind]
        rw [h2]
        simp [createBucketAgainst, remotePost, hfind, APSService.createBucket,
          remoteDetails]

/-- Claim C9 witness: a conflicting POST resolves to the existing bucket, and two
calls from an empty remote state agree. -/
theorem createBucketIdempotent_witness :
    APSService.createBucket envConflict = HttpResult.ok (mkBucket "autocad-viewer-1") ∧
    ∃ bkt, (createBucketAgainst { buckets := [] } "autocad-viewer-1").1 = .ok bkt ∧
      (createBucketAgainst (createBucketAgainst { buckets := [] }
          "autocad-viewer-1").2 "autocad-viewer-1").1 = .ok bkt := by
  constructor
  · exact createBucketIdempotent.1 envConflict "Bucket already exists" rfl
  · exact createBucketIdempotent.2 { buckets := [] } "autocad-viewer-1"

/-- Claim C10: encodeBase64Url is the standard base64 encoding with `+` replaced
by `-`, `/` replaced by `_`, and every `=` removed, and every character of its
output lies in `[A-Za-z0-9-_]`, so the derived urn is safe in a URL path
segment. -/
theorem encodeBase64UrlSafe (s : String) :
    APSService.encodeBase64Url s =
      ⟨((b64Chunks (utf8Bytes s.data)).map b64ToUrl).filter (fun c => c != '=')⟩ ∧
    ∀ c ∈ (APSService.encodeBase64Url s).data, base64UrlSafe c = true := by
  constructor
  · rfl
  · intro c hc
    have hc2 : c ∈ APSService.encodeBase64UrlChars (utf8Bytes s.data) := hc
    obtain ⟨hmem, hne⟩ := List.mem_filter.mp hc2
    obtain ⟨c0, hc0, rfl⟩ := List.mem_map.mp hmem
    rcases b64Chunks_safe (utf8Bytes s.data) (utf8Bytes_lt s.data) c0 hc0 with rfl | hsafe
    · exfalso
      have he : b64ToUrl '=' = '=' := rfl
      rw [he] at hne
      simp at hne
    · exact hsafe

/-- Claim C10 witness: the first output character of the urn for `plan.dwg` is in
the safe alphabet. -/
theorem encodeBase64UrlSafe_witness : base64UrlSafe 'c' = true :=
  (encodeBase64UrlSafe "plan.dwg").2 'c' (by decide)

end AutocadViewer
